import Mathlib

/-!
# Verification of the geoutils geohash / distance library

Shallow embedding of the library's core (`hash.js`, `coords.js`, `utils.js`,
`uri.js`, `consts.js`) and proofs about it.

Modelling conventions:

* JavaScript numbers are embedded at two levels.
  - The geohash codec and the accuracy tables only ever perform midpoint
    halving, comparisons and table lookups starting from the dyadic bounds
    ±90 / ±180; for the geohash lengths the library supports (the bisection
    state stays on dyadic rationals with small numerators) IEEE-754 doubles
    compute these operations exactly, so this part is embedded over `ℚ`
    extended with the special values `NaN`, `Infinity`, `-Infinity`
    (the type `QNum`).
  - The distance engine uses transcendental functions, so it is embedded
    over `ℝ` extended with the same special values (the type `JSNum`), with
    `Math.cos`/`Math.sin`/`Math.sqrt`/`Math.atan2`/`Math.hypot` modelled by
    the real functions and the IEEE special-value rules (NaN propagation,
    infinity arithmetic).  Rounding and overflow of finite double arithmetic
    are idealised away (finite arithmetic is exact real arithmetic); negative
    zero is identified with zero.
* A JavaScript value that may be `undefined`/missing is an `Option`;
  `typeof x !== 'number'` failure is the `none` case.
* Functions that `throw` return `Except String`.
-/

namespace GeoUtils

/-! ## JS numbers for the exact (codec / accuracy-table) fragment -/

/-- A JavaScript number as used by the codec and the accuracy tables:
a finite value (exact, as a rational), or `NaN`, `Infinity`, `-Infinity`. -/
inductive QNum where
  | num (q : ℚ)
  | nan
  | inf
  | ninf
deriving DecidableEq, Repr

/-- JS `<=` on `QNum`: `false` whenever `NaN` is involved. -/
def qle : QNum → QNum → Bool
  | .nan, _ => false
  | _, .nan => false
  | .num a, .num b => decide (a ≤ b)
  | .ninf, _ => true
  | _, .ninf => false
  | _, .inf => true
  | .inf, _ => false

/-! ## Constants (`consts.js`) -/

/-- `BASE32_ALPHABET = '0123456789bcdefghjkmnpqrstuvwxyz'` -/
def BASE32_ALPHABET : String := "0123456789bcdefghjkmnpqrstuvwxyz"

/-- `BASE32_ALPHABET.charAt(idx)` (in the encoder `idx` is always < 32,
so the default value is never used). -/
def base32Char (idx : ℕ) : Char := BASE32_ALPHABET.toList.getD idx '0'

/-- `BASE32_TABLE[char]`, the index of `char` in the alphabet.  A character
outside the alphabet yields `undefined` in JS; the decoder then computes
`(undefined >> i) & 1`, and `ToInt32(undefined) = 0`, so the five extracted
bits are those of index `0` — hence the `undefined` case is embedded as `0`
(the bit-coercion is folded into the lookup). -/
def charIdx (c : Char) : ℕ := (BASE32_ALPHABET.toList.indexOf? c).getD 0

/-! ## The geohash codec (`hash.js`) -/

/-- The bisection state shared by `encodeGeohash` and `_decodeGeohash`:
which axis the next bit splits (`even = true` means longitude), and the
current latitude / longitude interval bounds. -/
structure BisectSt where
  even : Bool
  latLo : ℚ
  latHi : ℚ
  lonLo : ℚ
  lonHi : ℚ
deriving DecidableEq, Repr

/-- The initial bisection state: longitude first, full boxes
`[-90, 90] × [-180, 180]`. -/
def initSt : BisectSt := ⟨true, -90, 90, -180, 180⟩

/-- One bit of `_decodeGeohash`'s inner loop: halve the interval of the
axis in turn, keeping the upper half on a `1` bit and the lower half on a
`0` bit, and flip the axis flag. -/
def decBit (st : BisectSt) (b : Bool) : BisectSt :=
  if st.even then
    let mid := (st.lonLo + st.lonHi) / 2
    if b then { st with even := !st.even, lonLo := mid }
    else { st with even := !st.even, lonHi := mid }
  else
    let mid := (st.latLo + st.latHi) / 2
    if b then { st with even := !st.even, latLo := mid }
    else { st with even := !st.even, latHi := mid }

/-- `_decodeGeohash`'s loop over a stream of bits. -/
def decBits (bs : List Bool) (st : BisectSt) : BisectSt := bs.foldl decBit st

/-- The five bits `(idx >> i) & 1`, `i = 4..0`, of a character's index. -/
def charBits (idx : ℕ) : List Bool :=
  [idx.testBit 4, idx.testBit 3, idx.testBit 2, idx.testBit 1, idx.testBit 0]

/-- The bit stream `_decodeGeohash` consumes: for each character of the
lower-cased input, the five bits of its alphabet index. -/
def stringBits (s : String) : List Bool :=
  (s.toList.map fun c => charBits (charIdx c.toLower)).flatten

/-- An argument that JS would type-check with `typeof g !== 'string'`:
either an actual string or some non-string value. -/
inductive GeoInput where
  | str (s : String)
  | nonString
deriving DecidableEq

/-- `_decodeGeohash(geohash)`: reject non-strings and the empty string,
else run the bisection from the full boxes, longitude first. -/
def _decodeGeohash (geohash : GeoInput) : Except String BisectSt :=
  match geohash with
  | .nonString => .error "Geohash must be a non-empty string."
  | .str s =>
    if s.length = 0 then .error "Geohash must be a non-empty string."
    else .ok (decBits (stringBits s) initSt)

/-- The `{latitude, longitude}` object `decodeGeohash` returns. -/
structure GeoCoordinates where
  latitude : ℚ
  longitude : ℚ
deriving DecidableEq, Repr

/-- `decodeGeohash(geohash)`: the midpoints of the final intervals. -/
def decodeGeohash (geohash : GeoInput) : Except String GeoCoordinates :=
  (_decodeGeohash geohash).map fun st =>
    { latitude := (st.latLo + st.latHi) / 2, longitude := (st.lonLo + st.lonHi) / 2 }

/-- The `{latitude: {min,max}, longitude: {min,max}}` object of
`getGeohashBounds`. -/
structure GeoBounds where
  latMin : ℚ
  latMax : ℚ
  lonMin : ℚ
  lonMax : ℚ
deriving DecidableEq, Repr

/-- `getGeohashBounds(geohash)`: the final intervals themselves. -/
def getGeohashBounds (geohash : GeoInput) : Except String GeoBounds :=
  (_decodeGeohash geohash).map fun st =>
    { latMin := st.latLo, latMax := st.latHi, lonMin := st.lonLo, lonMax := st.lonHi }

/-- `coordinate > mid` in the encoder, where the coordinate is a destructured
object field (possibly `undefined`): `undefined > mid` and `NaN > mid` and
`-Infinity > mid` are `false`, `Infinity > mid` is `true`. -/
def qGtMid (v : Option QNum) (mid : ℚ) : Bool :=
  match v with
  | some (.num x) => decide (mid < x)
  | some .inf => true
  | _ => false

/-- One bisection step of `encodeGeohash`: emit the bit (`1` iff the
coordinate exceeds the midpoint of the axis in turn), narrow that axis's
interval accordingly, and flip the axis flag. -/
def encBit (lat lon : Option QNum) (st : BisectSt) : Bool × BisectSt :=
  if st.even then
    let mid := (st.lonLo + st.lonHi) / 2
    if qGtMid lon mid then (true, { st with even := !st.even, lonLo := mid })
    else (false, { st with even := !st.even, lonHi := mid })
  else
    let mid := (st.latLo + st.latHi) / 2
    if qGtMid lat mid then (true, { st with even := !st.even, latLo := mid })
    else (false, { st with even := !st.even, latHi := mid })

/-- `idx = idx * 2 + bit` accumulated over one character's five bits. -/
def bitsToIdx (b1 b2 b3 b4 b5 : Bool) : ℕ :=
  ((((cond b1 1 0) * 2 + cond b2 1 0) * 2 + cond b3 1 0) * 2 + cond b4 1 0) * 2 + cond b5 1 0

/-- `encodeGeohash`'s `while` loop, with the number of characters still to
produce as fuel (the loop appends one alphabet character every five bits). -/
def encodeLoop (lat lon : Option QNum) : ℕ → BisectSt → String
  | 0, _ => ""
  | n + 1, st =>
    let p1 := encBit lat lon st
    let p2 := encBit lat lon p1.2
    let p3 := encBit lat lon p2.2
    let p4 := encBit lat lon p3.2
    let p5 := encBit lat lon p4.2
    String.singleton (base32Char (bitsToIdx p1.1 p2.1 p3.1 p4.1 p5.1)) ++
      encodeLoop lat lon n p5.2

/-- How many characters `while (geohash.length < accuracy)` produces:
the least `k` with `¬(k < accuracy)`.  `undefined` selects the default
accuracy 4; for `NaN` and nonpositive values the loop body never runs.
(`Infinity` would make the source loop forever; no claim exercises it.) -/
def numChars : Option QNum → ℕ
  | none => 4
  | some (.num q) => ⌈q⌉₊
  | some _ => 0

/-- `encodeGeohash({latitude, longitude}, accuracy)`. -/
def encodeGeohash (latitude longitude : Option QNum) (accuracy : Option QNum) : String :=
  encodeLoop latitude longitude (numChars accuracy) initSt

/-! ## The accuracy estimator (`hash.js`) -/

/-- The `switch (geohash.length)` table of `estimateGeohashAccuracy`. -/
def accOfLength : ℕ → QNum
  | 0 => .inf
  | 1 => .num 25000000
  | 2 => .num 630000
  | 3 => .num 78000
  | 4 => .num 20000
  | 5 => .num 2400
  | 6 => .num 610
  | 7 => .num 76
  | 8 => .num 19
  | 9 => .num 2.4
  | 10 => .num 0.6
  | 11 => .num 0.0074
  | _ => .num 0

/-- `estimateGeohashAccuracy(geohash)`: `NaN` for non-strings, else the
table entry for the string's length. -/
def estimateGeohashAccuracy (geohash : Option String) : QNum :=
  match geohash with
  | none => .nan
  | some s => accOfLength s.length

/-- The canonical accuracy table exactly as the specification words it
(length→meters: 0→∞, 1→25,000,000, …, ≥12→0), for comparison with the
implementation's `switch`. -/
def specAccuracyTable (n : ℕ) : QNum :=
  if n = 0 then .inf
  else if n = 1 then .num 25000000
  else if n = 2 then .num 630000
  else if n = 3 then .num 78000
  else if n = 4 then .num 20000
  else if n = 5 then .num 2400
  else if n = 6 then .num 610
  else if n = 7 then .num 76
  else if n = 8 then .num 19
  else if n = 9 then .num 2.4
  else if n = 10 then .num 0.6
  else if n = 11 then .num 0.0074
  else .num 0

/-- `calculateGeohashLength(distanceInMeters)`: `NaN` for non-numbers, `NaN`
(of `isNaN`), negative values (including `-Infinity`), `0` for `Infinity`,
else the descending threshold ladder. -/
def calculateGeohashLength : Option QNum → QNum
  | none => .nan
  | some .nan => .nan
  | some .ninf => .nan
  | some .inf => .num 0
  | some (.num d) =>
    if d < 0 then .nan
    else if 24999999 < d then .num 1
    else if 629999 < d then .num 2
    else if 77999 < d then .num 3
    else if 19999 < d then .num 4
    else if 2399 < d then .num 5
    else if 609 < d then .num 6
    else if 75 < d then .num 7
    else if 18 < d then .num 8
    else if (2.3 : ℚ) < d then .num 9
    else if (0.5 : ℚ) < d then .num 10
    else if (0.0073 : ℚ) < d then .num 11
    else .num 12

/-! ## The Geo URI adapter (`uri.js`), the slice `geoURIToGeohash` needs -/

/-- `ds.foldl` digit accumulation for decimal digit runs. -/
def digitsToNat (ds : List Char) : ℕ := ds.foldl (fun acc c => 10 * acc + (c.toNat - 48)) 0

/-- Model of the host's `parseFloat(s)`: skip leading whitespace, optional
sign, accept an `Infinity` or decimal-literal prefix (digits, optional
fraction, optional exponent), `NaN` when no digits are found.  The value is
exact (host `parseFloat` rounds to the nearest double). -/
def jsParseFloat (s : String) : QNum :=
  let cs := s.toList.dropWhile fun c => c = ' ' ∨ c = '\t' ∨ c = '\n' ∨ c = '\r'
  let sgn : ℚ := if cs.headD ' ' = '-' then -1 else 1
  let cs := if cs.headD ' ' = '-' ∨ cs.headD ' ' = '+' then cs.drop 1 else cs
  if cs.take 8 = "Infinity".toList then (if sgn = 1 then .inf else .ninf)
  else
    let intPart := cs.takeWhile Char.isDigit
    let cs1 := cs.dropWhile Char.isDigit
    let fracPart := if cs1.headD ' ' = '.' then (cs1.drop 1).takeWhile Char.isDigit else []
    let cs2 := if cs1.headD ' ' = '.' then (cs1.drop 1).dropWhile Char.isDigit else cs1
    if intPart.isEmpty ∧ fracPart.isEmpty then .nan
    else
      let mantissa : ℚ :=
        (digitsToNat intPart : ℚ) + (digitsToNat fracPart : ℚ) / (10 ^ fracPart.length)
      let expVal : ℤ :=
        if cs2.headD ' ' = 'e' ∨ cs2.headD ' ' = 'E' then
          let rest := cs2.drop 1
          let esgn : ℤ := if rest.headD ' ' = '-' then -1 else 1
          let rest := if rest.headD ' ' = '-' ∨ rest.headD ' ' = '+' then rest.drop 1 else rest
          let eds := rest.takeWhile Char.isDigit
          if eds.isEmpty then 0 else esgn * (digitsToNat eds : ℤ)
        else 0
      .num (sgn * mantissa * (10 : ℚ) ^ expVal)

/-- `s.split(sep)` for a single-character separator, on the character list
(structural recursion; JS semantics: `"" → [""]`, trailing separator yields a
trailing empty segment). -/
def splitChar (sep : Char) : List Char → List (List Char)
  | [] => [[]]
  | c :: rest =>
    if c = sep then [] :: splitChar sep rest
    else
      match splitChar sep rest with
      | [] => [[c]]
      | g :: gs => (c :: g) :: gs

/-- JS `s.split(sep)` for the one-character separators of the geo URI
grammar (`;`, `,`, `=`). -/
def jsSplit (sep : Char) (s : String) : List String :=
  (splitChar sep s.toList).map fun g => String.mk g

/-- The parts of a host `URL` object that `parseGeoURI` reads for the
coordinate fields (its `searchParams` only feed the extra `params` record,
which `geoURIToGeohash` discards). -/
structure JSURL where
  protocol : String
  origin : String
  pathname : String
deriving DecidableEq, Repr

/-- The coordinate fields of `parseGeoURI`'s result (`heading`,
`altitudeAccuracy`, `speed` are constant `null`).  A missing pathname
component is `undefined`, hence `Option`; `accuracy` is always
`parseFloat(...)`, a number. -/
structure GeoURICoords where
  latitude : Option QNum
  longitude : Option QNum
  altitude : Option QNum
  accuracy : QNum
deriving DecidableEq, Repr

/-- `parseGeoURI(uri)` on a `URL` object: reject a non-`geo:` protocol or a
non-null origin; split the pathname on `;`, the first segment on `,`
(limit 3) parsed with `parseFloat`, the rest into `key=value` entries;
`accuracy` is `parseFloat` of the `u` entry (`Object.fromEntries` keeps the
last occurrence; a missing `u`, or one without a value, gives
`parseFloat(undefined) = NaN`). -/
def parseGeoURI (uri : JSURL) : Except String GeoURICoords :=
  if uri.protocol ≠ "geo:" ∨ uri.origin ≠ "null" then
    .error "Invalid protocol"
  else
    let segs := jsSplit ';' uri.pathname
    let nums := ((jsSplit ',' (segs.headD "")).take 3).map jsParseFloat
    let entries := (segs.drop 1).map fun p =>
      let parts := (jsSplit '=' p).take 2
      (parts.headD "", parts[1]?)
    let uVal : Option (Option String) := (entries.reverse.find? fun e => e.1 = "u").map (·.2)
    let accuracy : QNum :=
      match uVal with
      | some (some v) => jsParseFloat v
      | _ => .nan
    .ok { latitude := nums[0]?, longitude := nums[1]?, altitude := nums[2]?,
          accuracy := accuracy }

/-- `geoURIToGeohash(uri)`: parse, derive the length from the accuracy,
encode. -/
def geoURIToGeohash (uri : JSURL) : Except String String :=
  (parseGeoURI uri).map fun c =>
    encodeGeohash c.latitude c.longitude (some (calculateGeohashLength (some c.accuracy)))

/-! ## JS numbers for the distance engine (`coords.js`) -/

/-- A JavaScript number for the distance engine: a finite value (idealised
as a real), or `NaN`, `Infinity`, `-Infinity`. -/
inductive JSNum where
  | num (x : ℝ)
  | nan
  | inf
  | ninf

noncomputable section

/-- IEEE negation. -/
def jneg : JSNum → JSNum
  | .num x => .num (-x)
  | .nan => .nan
  | .inf => .ninf
  | .ninf => .inf

/-- IEEE addition (without overflow of finite sums). -/
def jadd : JSNum → JSNum → JSNum
  | .num a, .num b => .num (a + b)
  | .num _, .nan => .nan
  | .num _, .inf => .inf
  | .num _, .ninf => .ninf
  | .nan, .num _ => .nan
  | .nan, .nan => .nan
  | .nan, .inf => .nan
  | .nan, .ninf => .nan
  | .inf, .num _ => .inf
  | .inf, .nan => .nan
  | .inf, .inf => .inf
  | .inf, .ninf => .nan
  | .ninf, .num _ => .ninf
  | .ninf, .nan => .nan
  | .ninf, .inf => .nan
  | .ninf, .ninf => .ninf

/-- IEEE subtraction, `a - b = a + (-b)` exactly. -/
def jsub (a b : JSNum) : JSNum := jadd a (jneg b)

/-- IEEE multiplication (`±∞ · 0 = NaN`). -/
def jmul : JSNum → JSNum → JSNum
  | .num a, .num b => .num (a * b)
  | .num _, .nan => .nan
  | .num a, .inf => if 0 < a then .inf else if a < 0 then .ninf else .nan
  | .num a, .ninf => if 0 < a then .ninf else if a < 0 then .inf else .nan
  | .nan, .num _ => .nan
  | .nan, .nan => .nan
  | .nan, .inf => .nan
  | .nan, .ninf => .nan
  | .inf, .num b => if 0 < b then .inf else if b < 0 then .ninf else .nan
  | .inf, .nan => .nan
  | .inf, .inf => .inf
  | .inf, .ninf => .ninf
  | .ninf, .num b => if 0 < b then .ninf else if b < 0 then .inf else .nan
  | .ninf, .nan => .nan
  | .ninf, .inf => .ninf
  | .ninf, .ninf => .inf

/-- IEEE division (with zero identified with `+0`). -/
def jdiv : JSNum → JSNum → JSNum
  | .num a, .num b =>
    if b = 0 then (if a = 0 then .nan else if 0 < a then .inf else .ninf)
    else .num (a / b)
  | .num _, .nan => .nan
  | .num _, .inf => .num 0
  | .num _, .ninf => .num 0
  | .nan, .num _ => .nan
  | .nan, .nan => .nan
  | .nan, .inf => .nan
  | .nan, .ninf => .nan
  | .inf, .num b => if b < 0 then .ninf else .inf
  | .inf, .nan => .nan
  | .inf, .inf => .nan
  | .inf, .ninf => .nan
  | .ninf, .num b => if b < 0 then .inf else .ninf
  | .ninf, .nan => .nan
  | .ninf, .inf => .nan
  | .ninf, .ninf => .nan

/-- `Math.max` (binary): `NaN` if an argument is `NaN`. -/
def jmax : JSNum → JSNum → JSNum
  | .num a, .num b => .num (max a b)
  | .num _, .nan => .nan
  | .num _, .inf => .inf
  | .num a, .ninf => .num a
  | .nan, .num _ => .nan
  | .nan, .nan => .nan
  | .nan, .inf => .nan
  | .nan, .ninf => .nan
  | .inf, .num _ => .inf
  | .inf, .nan => .nan
  | .inf, .inf => .inf
  | .inf, .ninf => .inf
  | .ninf, .num b => .num b
  | .ninf, .nan => .nan
  | .ninf, .inf => .inf
  | .ninf, .ninf => .ninf

/-- `Math.min` (binary): `NaN` if an argument is `NaN`. -/
def jmin : JSNum → JSNum → JSNum
  | .num a, .num b => .num (min a b)
  | .num _, .nan => .nan
  | .num a, .inf => .num a
  | .num _, .ninf => .ninf
  | .nan, .num _ => .nan
  | .nan, .nan => .nan
  | .nan, .inf => .nan
  | .nan, .ninf => .nan
  | .inf, .num b => .num b
  | .inf, .nan => .nan
  | .inf, .inf => .inf
  | .inf, .ninf => .ninf
  | .ninf, .num _ => .ninf
  | .ninf, .nan => .nan
  | .ninf, .inf => .ninf
  | .ninf, .ninf => .ninf

/-- `utils.js`'s `clamp(min, value, max) = Math.min(Math.max(value, min), max)`. -/
def clamp (lo v hi : JSNum) : JSNum := jmin (jmax v lo) hi

/-- `Math.cos`: `NaN` off finite values. -/
def jcos : JSNum → JSNum
  | .num x => .num (Real.cos x)
  | _ => .nan

/-- `Math.sin`: `NaN` off finite values. -/
def jsin : JSNum → JSNum
  | .num x => .num (Real.sin x)
  | _ => .nan

/-- `Math.sqrt`: `NaN` on negative arguments and `-Infinity`. -/
def jsqrt : JSNum → JSNum
  | .nan => .nan
  | .inf => .inf
  | .ninf => .nan
  | .num x => if x < 0 then .nan else .num (Real.sqrt x)

/-- `Math.atan2(y, x)` on finite arguments: the argument of the complex
number `x + y·i`, in `(-π, π]` — the same quadrant convention as JS. -/
def atan2R (y x : ℝ) : ℝ := Complex.arg ⟨x, y⟩

/-- `Math.atan2(y, x)` with the IEEE special-value rules (signed zeros
identified with zero). -/
def jatan2 : JSNum → JSNum → JSNum
  | .num a, .num b => .num (atan2R a b)
  | .num _, .nan => .nan
  | .num _, .inf => .num 0
  | .num a, .ninf => if 0 ≤ a then .num Real.pi else .num (-Real.pi)
  | .nan, .num _ => .nan
  | .nan, .nan => .nan
  | .nan, .inf => .nan
  | .nan, .ninf => .nan
  | .inf, .num _ => .num (Real.pi / 2)
  | .inf, .nan => .nan
  | .inf, .inf => .num (Real.pi / 4)
  | .inf, .ninf => .num (3 * Real.pi / 4)
  | .ninf, .num _ => .num (-(Real.pi / 2))
  | .ninf, .nan => .nan
  | .ninf, .inf => .num (-(Real.pi / 4))
  | .ninf, .ninf => .num (-(3 * Real.pi / 4))

/-- `Math.hypot` (binary): `Infinity` if either argument is infinite (even
when the other is `NaN`), else `NaN`-propagating, else `√(x² + y²)`. -/
def jhypot : JSNum → JSNum → JSNum
  | .num x, .num y => .num (Real.sqrt (x * x + y * y))
  | .num _, .nan => .nan
  | .num _, .inf => .inf
  | .num _, .ninf => .inf
  | .nan, .num _ => .nan
  | .nan, .nan => .nan
  | .nan, .inf => .inf
  | .nan, .ninf => .inf
  | .inf, .num _ => .inf
  | .inf, .nan => .inf
  | .inf, .inf => .inf
  | .inf, .ninf => .inf
  | .ninf, .num _ => .inf
  | .ninf, .nan => .inf
  | .ninf, .inf => .inf
  | .ninf, .ninf => .inf

/-- JS `<`: `false` whenever `NaN` is involved. -/
def jlt : JSNum → JSNum → Bool
  | .num a, .num b => decide (a < b)
  | .num _, .nan => false
  | .num _, .inf => true
  | .num _, .ninf => false
  | .nan, .num _ => false
  | .nan, .nan => false
  | .nan, .inf => false
  | .nan, .ninf => false
  | .inf, .num _ => false
  | .inf, .nan => false
  | .inf, .inf => false
  | .inf, .ninf => false
  | .ninf, .num _ => true
  | .ninf, .nan => false
  | .ninf, .inf => true
  | .ninf, .ninf => false

/-- JS `>`: `a > b` exactly when `b < a`. -/
def jgt (a b : JSNum) : Bool := jlt b a

/-- `RADIANS_PER_DEGREE = Math.PI / 180` (`consts.js`). -/
def RADIANS_PER_DEGREE : ℝ := Real.pi / 180

/-- `EARTH_RADIUS_METERS = 6371000` (`consts.js`). -/
def EARTH_RADIUS_METERS : ℝ := 6371000

/-- A `{latitude, longitude}` argument object of the distance engine;
a field that is missing or not a number is `none`. -/
structure JSCoords where
  latitude : Option JSNum
  longitude : Option JSNum

/-- `getDistance(coords1, coords2, {highAccuracy})` (`coords.js`): `NaN`
unless all four fields are numbers; otherwise the planar approximation
(low accuracy) or the haversine formula with the `clamp`ed radian values
(high accuracy). -/
def getDistance (coords1 coords2 : JSCoords) (highAccuracy : Bool) : JSNum :=
  match coords1.latitude, coords1.longitude, coords2.latitude, coords2.longitude with
  | some lat1, some lon1, some lat2, some lon2 =>
    if highAccuracy = false then
      let latScale := jcos (jdiv (jmul (jadd lat1 lat2) (.num RADIANS_PER_DEGREE)) (.num 2))
      let dLon := jmul (jmul (jsub lon2 lon1) (.num RADIANS_PER_DEGREE)) latScale
      let dLat := jmul (jsub lat2 lat1) (.num RADIANS_PER_DEGREE)
      jmul (.num EARTH_RADIUS_METERS) (jhypot dLon dLat)
    else
      let lat1Rad := clamp (.num (-90)) (jmul lat1 (.num RADIANS_PER_DEGREE)) (.num 90)
      let lat2Rad := clamp (.num (-90)) (jmul lat2 (.num RADIANS_PER_DEGREE)) (.num 90)
      let rads1 := clamp (.num (-180)) (jmul (jsub lat2 lat1) (.num RADIANS_PER_DEGREE)) (.num 180)
      let rads2 := clamp (.num (-180)) (jmul (jsub lon2 lon1) (.num RADIANS_PER_DEGREE)) (.num 180)
      let dist := jadd (jmul (jsin (jdiv rads1 (.num 2))) (jsin (jdiv rads1 (.num 2))))
        (jmul (jmul (jmul (jcos lat1Rad) (jcos lat2Rad)) (jsin (jdiv rads2 (.num 2))))
          (jsin (jdiv rads2 (.num 2))))
      let angDist := jmul (.num 2) (jatan2 (jsqrt dist) (jsqrt (jsub (.num 1) dist)))
      jmul (.num EARTH_RADIUS_METERS) angDist
  | _, _, _, _ => .nan

/-- `checkLocation(location, location2, {radius = 100_000, highAccuracy = false})`:
`radius > getDistance(location2, location, {highAccuracy})`.  An omitted
option is `none`. -/
def checkLocation (location location2 : JSCoords)
    (radius : Option JSNum) (highAccuracy : Option Bool) : Bool :=
  jgt (radius.getD (.num 100000)) (getDistance location2 location (highAccuracy.getD false))

/-- `checkGeohash(geohash, coords, {highAccuracy = false, radius = 100})`:
decode (propagating its `TypeError`), then
`checkLocation(decoded, coords, {highAccuracy, radius})`. -/
def checkGeohash (geohash : GeoInput) (coords : JSCoords)
    (radius : Option JSNum) (highAccuracy : Option Bool) : Except String Bool :=
  (decodeGeohash geohash).map fun p =>
    checkLocation
      { latitude := some (.num (p.latitude : ℝ)), longitude := some (.num (p.longitude : ℝ)) }
      coords (some (radius.getD (.num 100))) (some (highAccuracy.getD false))

/-- The intermediate value `dist` of the high-accuracy branch (the haversine
term `h`), as a function of the four finite coordinate values. -/
def haversineTerm (lat1 lon1 lat2 lon2 : ℝ) : ℝ :=
  let lat1Rad := min (max (lat1 * RADIANS_PER_DEGREE) (-90)) 90
  let lat2Rad := min (max (lat2 * RADIANS_PER_DEGREE) (-90)) 90
  let rads1 := min (max ((lat2 - lat1) * RADIANS_PER_DEGREE) (-180)) 180
  let rads2 := min (max ((lon2 - lon1) * RADIANS_PER_DEGREE) (-180)) 180
  Real.sin (rads1 / 2) * Real.sin (rads1 / 2) +
    Real.cos lat1Rad * Real.cos lat2Rad * Real.sin (rads2 / 2) * Real.sin (rads2 / 2)

end

/-- Invariant of the bisection during encoding: the coordinate lies in both
current intervals, and the intervals lie inside the initial boxes. -/
def contained (la lo : ℚ) (st : BisectSt) : Prop :=
  st.latLo ≤ la ∧ la ≤ st.latHi ∧ st.lonLo ≤ lo ∧ lo ≤ st.lonHi ∧
  -90 ≤ st.latLo ∧ st.latHi ≤ 90 ∧ -180 ≤ st.lonLo ∧ st.lonHi ≤ 180

/-- The bisection state obtained by decoding the geohash that encodes
`(la, lo)` at length `n` — the narrowing of the initial box along the
hash's bit stream, longitude first. -/
def encodedState (la lo : ℚ) (n : ℕ) : BisectSt :=
  decBits (stringBits (encodeGeohash (some (.num la)) (some (.num lo)) (some (.num (n : ℚ)))))
    initSt

/-! ## Lemmas: the codec round trip -/

/-- Decoding the bit the encoder just emitted performs the same interval
update the encoder performed. -/
theorem decBit_encBit (lat lon : Option QNum) (st : BisectSt) :
    decBit st (encBit lat lon st).1 = (encBit lat lon st).2 := by
  unfold decBit encBit
  by_cases h : st.even <;> simp [h] <;> split <;> simp

theorem decBits_append (a b : List Bool) (st : BisectSt) :
    decBits (a ++ b) st = decBits b (decBits a st) := by
  simp [decBits, List.foldl_append]

/-- Packing five bits into a base32 character and looking the character back
up recovers exactly those five bits. -/
theorem charRoundTrip : ∀ b1 b2 b3 b4 b5 : Bool,
    charBits (charIdx (base32Char (bitsToIdx b1 b2 b3 b4 b5)).toLower) =
      [b1, b2, b3, b4, b5] := by decide

theorem stringBits_singleton_append (c : Char) (s : String) :
    stringBits (String.singleton c ++ s) = charBits (charIdx c.toLower) ++ stringBits s := by
  simp [stringBits, String.toList, String.singleton, String.data_append]

theorem encodeLoop_length (lat lon : Option QNum) (n : ℕ) (st : BisectSt) :
    (encodeLoop lat lon n st).length = n := by
  induction n generalizing st with
  | zero => rfl
  | succ n ih => simp [encodeLoop, String.length_append, ih]; omega

/-- One encoding step preserves the bisection invariant. -/
theorem encBit_contained (la lo : ℚ) (st : BisectSt) (h : contained la lo st) :
    contained la lo (encBit (some (.num la)) (some (.num lo)) st).2 := by
  obtain ⟨h1, h2, h3, h4, h5, h6, h7, h8⟩ := h
  unfold encBit
  by_cases he : st.even
  · by_cases hc : qGtMid (some (.num lo)) ((st.lonLo + st.lonHi) / 2) = true
    · have hc2 : (st.lonLo + st.lonHi) / 2 < lo := by simpa [qGtMid] using hc
      rw [if_pos he, if_pos hc]
      exact ⟨h1, h2, le_of_lt hc2, h4, h5, h6, by linarith, h8⟩
    · have hc2 : lo ≤ (st.lonLo + st.lonHi) / 2 := by simpa [qGtMid] using hc
      rw [if_pos he, if_neg hc]
      exact ⟨h1, h2, h3, hc2, h5, h6, h7, by linarith⟩
  · by_cases hc : qGtMid (some (.num la)) ((st.latLo + st.latHi) / 2) = true
    · have hc2 : (st.latLo + st.latHi) / 2 < la := by simpa [qGtMid] using hc
      rw [if_neg he, if_pos hc]
      exact ⟨le_of_lt hc2, h2, h3, h4, by linarith, h6, h7, h8⟩
    · have hc2 : la ≤ (st.latLo + st.latHi) / 2 := by simpa [qGtMid] using hc
      rw [if_neg he, if_neg hc]
      exact ⟨h1, hc2, h3, h4, h5, by linarith, h7, h8⟩

/-- Decoding the bits of the string the encoder produced replays exactly the
encoder's interval narrowing, so the final state satisfies the invariant. -/
theorem decode_encodeLoop_contained (la lo : ℚ) (n : ℕ) (st : BisectSt)
    (h : contained la lo st) :
    contained la lo
      (decBits (stringBits (encodeLoop (some (.num la)) (some (.num lo)) n st)) st) := by
  induction n generalizing st with
  | zero =>
    simpa [encodeLoop, stringBits, decBits] using h
  | succ n ih =>
    rw [encodeLoop]
    rw [stringBits_singleton_append, decBits_append]
    rw [charRoundTrip]
    have e1 := decBit_encBit (some (QNum.num la)) (some (QNum.num lo)) st
    set p1 := encBit (some (QNum.num la)) (some (QNum.num lo)) st with hp1
    have e2 := decBit_encBit (some (QNum.num la)) (some (QNum.num lo)) p1.2
    set p2 := encBit (some (QNum.num la)) (some (QNum.num lo)) p1.2 with hp2
    have e3 := decBit_encBit (some (QNum.num la)) (some (QNum.num lo)) p2.2
    set p3 := encBit (some (QNum.num la)) (some (QNum.num lo)) p2.2 with hp3
    have e4 := decBit_encBit (some (QNum.num la)) (some (QNum.num lo)) p3.2
    set p4 := encBit (some (QNum.num la)) (some (QNum.num lo)) p3.2 with hp4
    have e5 := decBit_encBit (some (QNum.num la)) (some (QNum.num lo)) p4.2
    set p5 := encBit (some (QNum.num la)) (some (QNum.num lo)) p4.2 with hp5
    have hst5 : decBits [p1.1, p2.1, p3.1, p4.1, p5.1] st = p5.2 := by
      simp [decBits, e1, e2, e3, e4, e5]
    rw [hst5]
    exact ih p5.2 (encBit_contained la lo p4.2 (encBit_contained la lo p3.2
      (encBit_contained la lo p2.2 (encBit_contained la lo p1.2
        (encBit_contained la lo st h)))))

theorem numChars_natCast (n : ℕ) : numChars (some (.num (n : ℚ))) = n := by
  simp [numChars]

/-- C1: for every coordinate with latitude in [-90, 90] and longitude in
[-180, 180] and every length n in 1..12, the encoded geohash decodes to a
bounding box that contains both the original coordinate and the decoded
point estimate (min ≤ value ≤ max on both axes); the box lies inside the
initial [-90,90] × [-180,180] box and is exactly the midpoint-bisection
narrowing of that box along the hash's bit stream, longitude first
(`encodedState` is `decBits … initSt` and `initSt.even = true`). -/
theorem encode_roundtrip_within_bounds (la lo : ℚ) (n : ℕ)
    (h1 : -90 ≤ la) (h2 : la ≤ 90) (h3 : -180 ≤ lo) (h4 : lo ≤ 180)
    (h5 : 1 ≤ n) (h6 : n ≤ 12) :
    getGeohashBounds
        (.str (encodeGeohash (some (.num la)) (some (.num lo)) (some (.num (n : ℚ))))) =
      .ok ⟨(encodedState la lo n).latLo, (encodedState la lo n).latHi,
        (encodedState la lo n).lonLo, (encodedState la lo n).lonHi⟩ ∧
    decodeGeohash
        (.str (encodeGeohash (some (.num la)) (some (.num lo)) (some (.num (n : ℚ))))) =
      .ok ⟨((encodedState la lo n).latLo + (encodedState la lo n).latHi) / 2,
        ((encodedState la lo n).lonLo + (encodedState la lo n).lonHi) / 2⟩ ∧
    (encodedState la lo n).latLo ≤ la ∧ la ≤ (encodedState la lo n).latHi ∧
    (encodedState la lo n).lonLo ≤ lo ∧ lo ≤ (encodedState la lo n).lonHi ∧
    (encodedState la lo n).latLo ≤ ((encodedState la lo n).latLo + (encodedState la lo n).latHi) / 2 ∧
    ((encodedState la lo n).latLo + (encodedState la lo n).latHi) / 2 ≤ (encodedState la lo n).latHi ∧
    (encodedState la lo n).lonLo ≤ ((encodedState la lo n).lonLo + (encodedState la lo n).lonHi) / 2 ∧
    ((encodedState la lo n).lonLo + (encodedState la lo n).lonHi) / 2 ≤ (encodedState la lo n).lonHi ∧
    -90 ≤ (encodedState la lo n).latLo ∧ (encodedState la lo n).latHi ≤ 90 ∧
    -180 ≤ (encodedState la lo n).lonLo ∧ (encodedState la lo n).lonHi ≤ 180 := by
  have hlen : (encodeGeohash (some (.num la)) (some (.num lo)) (some (.num (n : ℚ)))).length = n := by
    unfold encodeGeohash
    rw [numChars_natCast]
    exact encodeLoop_length _ _ _ _
  have hne : ¬((encodeGeohash (some (.num la)) (some (.num lo)) (some (.num (n : ℚ)))).length = 0) := by
    omega
  have hcont : contained la lo (encodedState la lo n) := by
    unfold encodedState encodeGeohash
    rw [numChars_natCast]
    exact decode_encodeLoop_contained la lo n initSt
      ⟨h1, h2, h3, h4, le_refl _, le_refl _, le_refl _, le_refl _⟩
  obtain ⟨c1, c2, c3, c4, c5, c6, c7, c8⟩ := hcont
  refine ⟨?_, ?_, c1, c2, c3, c4, by linarith, by linarith, by linarith, by linarith,
    c5, c6, c7, c8⟩
  · unfold getGeohashBounds _decodeGeohash
    dsimp only
    rw [if_neg hne]
    rfl
  · unfold decodeGeohash _decodeGeohash
    dsimp only
    rw [if_neg hne]
    rfl

/-- C1 witness: the concrete instance latitude 0, longitude 0, length 1. -/
theorem encode_roundtrip_within_bounds_witness :
    getGeohashBounds
        (.str (encodeGeohash (some (.num 0)) (some (.num 0)) (some (.num ((1 : ℕ) : ℚ))))) =
      .ok ⟨(encodedState 0 0 1).latLo, (encodedState 0 0 1).latHi,
        (encodedState 0 0 1).lonLo, (encodedState 0 0 1).lonHi⟩ ∧
    decodeGeohash
        (.str (encodeGeohash (some (.num 0)) (some (.num 0)) (some (.num ((1 : ℕ) : ℚ))))) =
      .ok ⟨((encodedState 0 0 1).latLo + (encodedState 0 0 1).latHi) / 2,
        ((encodedState 0 0 1).lonLo + (encodedState 0 0 1).lonHi) / 2⟩ ∧
    (encodedState 0 0 1).latLo ≤ 0 ∧ (0 : ℚ) ≤ (encodedState 0 0 1).latHi ∧
    (encodedState 0 0 1).lonLo ≤ 0 ∧ (0 : ℚ) ≤ (encodedState 0 0 1).lonHi ∧
    (encodedState 0 0 1).latLo ≤ ((encodedState 0 0 1).latLo + (encodedState 0 0 1).latHi) / 2 ∧
    ((encodedState 0 0 1).latLo + (encodedState 0 0 1).latHi) / 2 ≤ (encodedState 0 0 1).latHi ∧
    (encodedState 0 0 1).lonLo ≤ ((encodedState 0 0 1).lonLo + (encodedState 0 0 1).lonHi) / 2 ∧
    ((encodedState 0 0 1).lonLo + (encodedState 0 0 1).lonHi) / 2 ≤ (encodedState 0 0 1).lonHi ∧
    -90 ≤ (encodedState 0 0 1).latLo ∧ (encodedState 0 0 1).latHi ≤ 90 ∧
    -180 ≤ (encodedState 0 0 1).lonLo ∧ (encodedState 0 0 1).lonHi ≤ 180 :=
  encode_roundtrip_within_bounds 0 0 1 (by norm_num) (by norm_num) (by norm_num)
    (by norm_num) (by norm_num) (by norm_num)

/-- C2 counterexample: `'!'` is outside the base32 alphabet, yet
`decodeGeohash("!")` does not throw — it returns the coordinates of the
all-zero-bits cell (the cell of `'0'`), because the table lookup is
`undefined` and its bits coerce to `0`. -/
theorem decodeGeohash_accepts_invalid_char :
    ('!' ∉ BASE32_ALPHABET.toList) ∧
    decodeGeohash (.str "!") = .ok ⟨-135/2, -315/2⟩ ∧
    decodeGeohash (.str "!") = decodeGeohash (.str "0") := by
  have h1 : stringBits "!" = [false, false, false, false, false] := by decide
  have h2 : stringBits "0" = [false, false, false, false, false] := by decide
  have hl1 : ¬("!".length = 0) := by decide
  have hl2 : ¬("0".length = 0) := by decide
  refine ⟨by decide, ?_, ?_⟩
  · simp only [decodeGeohash, _decodeGeohash, hl1, if_false, h1, Except.map]
    simp only [decBits, List.foldl, decBit, initSt]
    norm_num
  · simp only [decodeGeohash, _decodeGeohash, hl1, hl2, if_false, h1, h2, Except.map]

/-- C2 amended: `decodeGeohash` and `getGeohashBounds` throw exactly when
the input is not a string or is the empty string; strings containing
characters outside the alphabet are accepted (each such character is
processed as if its five bits were zero). -/
theorem decodeGeohash_error_iff :
    (∀ g : GeoInput, (∃ e, decodeGeohash g = .error e) ↔ g = .nonString ∨ g = .str "") ∧
    (∀ g : GeoInput, (∃ e, getGeohashBounds g = .error e) ↔ g = .nonString ∨ g = .str "") := by
  constructor <;> intro g <;> cases g with
  | nonString => simp [decodeGeohash, getGeohashBounds, _decodeGeohash, Except.map]
  | str s =>
    by_cases hs : s.length = 0
    · have hs2 : s = "" := by
        obtain ⟨data⟩ := s
        simp only [String.length] at hs
        rw [List.length_eq_zero] at hs
        rw [hs]
      subst hs2
      simp [decodeGeohash, getGeohashBounds, _decodeGeohash, Except.map]
    · have hs2 : ¬(s = "") := fun h => hs (by simp [h])
      simp [decodeGeohash, getGeohashBounds, _decodeGeohash, hs, hs2, Except.map]

/-! ## Lemmas: the accuracy estimator -/

theorem accOfLength_eq_specTable : ∀ n : ℕ, accOfLength n = specAccuracyTable n
  | 0 => rfl
  | 1 => rfl
  | 2 => rfl
  | 3 => rfl
  | 4 => rfl
  | 5 => rfl
  | 6 => rfl
  | 7 => rfl
  | 8 => rfl
  | 9 => rfl
  | 10 => rfl
  | 11 => rfl
  | (_ + 12) => rfl

/-- C4: `estimateGeohashAccuracy` depends only on the string's length, equals
the canonical table of the specification at every length, and returns `NaN`
on non-string input. -/
theorem estimateGeohashAccuracy_table :
    (∀ s : String, estimateGeohashAccuracy (some s) = specAccuracyTable s.length) ∧
    (∀ s t : String, s.length = t.length →
      estimateGeohashAccuracy (some s) = estimateGeohashAccuracy (some t)) ∧
    estimateGeohashAccuracy none = .nan := by
  refine ⟨fun s => accOfLength_eq_specTable s.length, fun s t h => ?_, rfl⟩
  simp only [estimateGeohashAccuracy, h]

/-- C4 witness: the table at the concrete length-8 geohash of the test suite. -/
theorem estimateGeohashAccuracy_table_witness :
    estimateGeohashAccuracy (some "9q8yyk8y") = specAccuracyTable ("9q8yyk8y".length) :=
  estimateGeohashAccuracy_table.1 "9q8yyk8y"

/-- C5 counterexample: the threshold ladder and the table disagree on the
fractional input 18.5: the computed length is 8 but the table entry for
length 8 is 19 > 18.5, so `estimateGeohashAccuracy` at the derived length
is not ≤ the requested accuracy. -/
theorem calculateGeohashLength_gap :
    (0 : ℚ) ≤ 37 / 2 ∧
    calculateGeohashLength (some (.num (37 / 2))) = .num 8 ∧
    accOfLength 8 = .num 19 ∧
    estimateGeohashAccuracy (some "u4pruydq") = .num 19 ∧
    qle (accOfLength 8) (.num (37 / 2)) = false := by
  refine ⟨by norm_num, ?_, rfl, rfl, ?_⟩
  · simp only [calculateGeohashLength]
    norm_num
  · simp only [accOfLength, qle, decide_eq_false_iff_not]
    norm_num

/-- C5 amended: for every non-negative integer number of meters `k`,
`calculateGeohashLength(k)` is an integer length `m` in 1..12 whose accuracy
table entry is ≤ `k` (for non-integer inputs falling in a gap such as 18.5
this fails, see the counterexample); `Infinity` maps to length 0, and
negative or non-numeric input (and `NaN`) gives `NaN`. -/
theorem calculateGeohashLength_consistent :
    (∀ k : ℕ, ∃ m : ℕ, 1 ≤ m ∧ m ≤ 12 ∧
      calculateGeohashLength (some (.num (k : ℚ))) = .num (m : ℚ) ∧
      qle (accOfLength m) (.num (k : ℚ)) = true ∧
      ∀ s : String, s.length = m → qle (estimateGeohashAccuracy (some s)) (.num (k : ℚ)) = true) ∧
    calculateGeohashLength (some .inf) = .num 0 ∧
    (∀ q : ℚ, q < 0 → calculateGeohashLength (some (.num q)) = .nan) ∧
    calculateGeohashLength (some .ninf) = .nan ∧
    calculateGeohashLength none = .nan := by
  refine ⟨fun k => ?_, rfl, fun q hq => ?_, rfl, rfl⟩
  case refine_2 =>
    simp only [calculateGeohashLength]
    rw [if_pos hq]
  have hk0 : ¬((k : ℚ) < 0) := not_lt.mpr (by positivity)
  by_cases h1 : (24999999 : ℚ) < (k : ℚ)
  · have hv : (25000000 : ℚ) ≤ (k : ℚ) := by
      have h : (24999999 : ℕ) < k := by exact_mod_cast h1
      exact_mod_cast h
    refine ⟨1, by norm_num, by norm_num, ?_, ?_, fun s hs => ?_⟩
    · simp only [calculateGeohashLength]
      rw [if_neg hk0, if_pos h1]
      norm_num
    · simp [accOfLength, qle, hv]
    · simp [estimateGeohashAccuracy, hs, accOfLength, qle, hv]
  by_cases h2 : (629999 : ℚ) < (k : ℚ)
  · have hv : (630000 : ℚ) ≤ (k : ℚ) := by
      have h : (629999 : ℕ) < k := by exact_mod_cast h2
      exact_mod_cast h
    refine ⟨2, by norm_num, by norm_num, ?_, ?_, fun s hs => ?_⟩
    · simp only [calculateGeohashLength]
      rw [if_neg hk0, if_neg h1, if_pos h2]
      norm_num
    · simp [accOfLength, qle, hv]
    · simp [estimateGeohashAccuracy, hs, accOfLength, qle, hv]
  by_cases h3 : (77999 : ℚ) < (k : ℚ)
  · have hv : (78000 : ℚ) ≤ (k : ℚ) := by
      have h : (77999 : ℕ) < k := by exact_mod_cast h3
      exact_mod_cast h
    refine ⟨3, by norm_num, by norm_num, ?_, ?_, fun s hs => ?_⟩
    · simp only [calculateGeohashLength]
      rw [if_neg hk0, if_neg h1, if_neg h2, if_pos h3]
      norm_num
    · simp [accOfLength, qle, hv]
    · simp [estimateGeohashAccuracy, hs, accOfLength, qle, hv]
  by_cases h4 : (19999 : ℚ) < (k : ℚ)
  · have hv : (20000 : ℚ) ≤ (k : ℚ) := by
      have h : (19999 : ℕ) < k := by exact_mod_cast h4
      exact_mod_cast h
    refine ⟨4, by norm_num, by norm_num, ?_, ?_, fun s hs => ?_⟩
    · simp only [calculateGeohashLength]
      rw [if_neg hk0, if_neg h1, if_neg h2, if_neg h3, if_pos h4]
      norm_num
    · simp [accOfLength, qle, hv]
    · simp [estimateGeohashAccuracy, hs, accOfLength, qle, hv]
  by_cases h5 : (2399 : ℚ) < (k : ℚ)
  · have hv : (2400 : ℚ) ≤ (k : ℚ) := by
      have h : (2399 : ℕ) < k := by exact_mod_cast h5
      exact_mod_cast h
    refine ⟨5, by norm_num, by norm_num, ?_, ?_, fun s hs => ?_⟩
    · simp only [calculateGeohashLength]
      rw [if_neg hk0, if_neg h1, if_neg h2, if_neg h3, if_neg h4, if_pos h5]
      norm_num
    · simp [accOfLength, qle, hv]
    · simp [estimateGeohashAccuracy, hs, accOfLength, qle, hv]
  by_cases h6 : (609 : ℚ) < (k : ℚ)
  · have hv : (610 : ℚ) ≤ (k : ℚ) := by
      have h : (609 : ℕ) < k := by exact_mod_cast h6
      exact_mod_cast h
    refine ⟨6, by norm_num, by norm_num, ?_, ?_, fun s hs => ?_⟩
    · simp only [calculateGeohashLength]
      rw [if_neg hk0, if_neg h1, if_neg h2, if_neg h3, if_neg h4, if_neg h5, if_pos h6]
      norm_num
    · simp [accOfLength, qle, hv]
    · simp [estimateGeohashAccuracy, hs, accOfLength, qle, hv]
  by_cases h7 : (75 : ℚ) < (k : ℚ)
  · have hv : (76 : ℚ) ≤ (k : ℚ) := by
      have h : (75 : ℕ) < k := by exact_mod_cast h7
      exact_mod_cast h
    refine ⟨7, by norm_num, by norm_num, ?_, ?_, fun s hs => ?_⟩
    · simp only [calculateGeohashLength]
      rw [if_neg hk0, if_neg h1, if_neg h2, if_neg h3, if_neg h4, if_neg h5, if_neg h6,
        if_pos h7]
      norm_num
    · simp [accOfLength, qle, hv]
    · simp [estimateGeohashAccuracy, hs, accOfLength, qle, hv]
  by_cases h8 : (18 : ℚ) < (k : ℚ)
  · have hv : (19 : ℚ) ≤ (k : ℚ) := by
      have h : (18 : ℕ) < k := by exact_mod_cast h8
      exact_mod_cast h
    refine ⟨8, by norm_num, by norm_num, ?_, ?_, fun s hs => ?_⟩
    · simp only [calculateGeohashLength]
      rw [if_neg hk0, if_neg h1, if_neg h2, if_neg h3, if_neg h4, if_neg h5, if_neg h6,
        if_neg h7, if_pos h8]
      norm_num
    · simp [accOfLength, qle, hv]
    · simp [estimateGeohashAccuracy, hs, accOfLength, qle, hv]
  by_cases h9 : (2.3 : ℚ) < (k : ℚ)
  · have hk3 : (3 : ℕ) ≤ k := by
      by_contra hc
      push_neg at hc
      interval_cases k <;> norm_num at h9
    have hv : (2.4 : ℚ) ≤ (k : ℚ) := by
      have : (3 : ℚ) ≤ (k : ℚ) := by exact_mod_cast hk3
      norm_num
      linarith
    refine ⟨9, by norm_num, by norm_num, ?_, ?_, fun s hs => ?_⟩
    · simp only [calculateGeohashLength]
      rw [if_neg hk0, if_neg h1, if_neg h2, if_neg h3, if_neg h4, if_neg h5, if_neg h6,
        if_neg h7, if_neg h8, if_pos h9]
      norm_num
    · simp [accOfLength, qle]
      linarith
    · simp [estimateGeohashAccuracy, hs, accOfLength, qle]
      linarith
  by_cases h10 : (0.5 : ℚ) < (k : ℚ)
  · have hk1 : (1 : ℕ) ≤ k := by
      by_contra hc
      push_neg at hc
      interval_cases k <;> norm_num at h10
    have hv : (0.6 : ℚ) ≤ (k : ℚ) := by
      have : (1 : ℚ) ≤ (k : ℚ) := by exact_mod_cast hk1
      norm_num
      linarith
    refine ⟨10, by norm_num, by norm_num, ?_, ?_, fun s hs => ?_⟩
    · simp only [calculateGeohashLength]
      rw [if_neg hk0, if_neg h1, if_neg h2, if_neg h3, if_neg h4, if_neg h5, if_neg h6,
        if_neg h7, if_neg h8, if_neg h9, if_pos h10]
      norm_num
    · simp [accOfLength, qle]
      linarith
    · simp [estimateGeohashAccuracy, hs, accOfLength, qle]
      linarith
  by_cases h11 : (0.0073 : ℚ) < (k : ℚ)
  · have hk1 : (1 : ℕ) ≤ k := by
      by_contra hc
      push_neg at hc
      interval_cases k <;> norm_num at h11
    have hv : (0.0074 : ℚ) ≤ (k : ℚ) := by
      have : (1 : ℚ) ≤ (k : ℚ) := by exact_mod_cast hk1
      norm_num
      linarith
    refine ⟨11, by norm_num, by norm_num, ?_, ?_, fun s hs => ?_⟩
    · simp only [calculateGeohashLength]
      rw [if_neg hk0, if_neg h1, if_neg h2, if_neg h3, if_neg h4, if_neg h5, if_neg h6,
        if_neg h7, if_neg h8, if_neg h9, if_neg h10, if_pos h11]
      norm_num
    · simp [accOfLength, qle]
      linarith
    · simp [estimateGeohashAccuracy, hs, accOfLength, qle]
      linarith
  · refine ⟨12, by norm_num, by norm_num, ?_, ?_, fun s hs => ?_⟩
    · simp only [calculateGeohashLength]
      rw [if_neg hk0, if_neg h1, if_neg h2, if_neg h3, if_neg h4, if_neg h5, if_neg h6,
        if_neg h7, if_neg h8, if_neg h9, if_neg h10, if_neg h11]
      norm_num
    · simp [accOfLength, qle]
    · simp [estimateGeohashAccuracy, hs, accOfLength, qle]

/-- C5 witness: the concrete instance 5 meters, length 9, entry 2.4 ≤ 5. -/
theorem calculateGeohashLength_consistent_witness :
    ∃ m : ℕ, 1 ≤ m ∧ m ≤ 12 ∧
      calculateGeohashLength (some (.num ((5 : ℕ) : ℚ))) = .num (m : ℚ) ∧
      qle (accOfLength m) (.num ((5 : ℕ) : ℚ)) = true ∧
      ∀ s : String, s.length = m →
        qle (estimateGeohashAccuracy (some s)) (.num ((5 : ℕ) : ℚ)) = true :=
  calculateGeohashLength_consistent.1 5

/-! ## Lemmas: degenerate encoding lengths -/

/-- C10: `encodeGeohash` returns the empty string (without throwing) whenever
the requested precision is not a positive number (0, negative, `-Infinity`,
or `NaN`); consequently `geoURIToGeohash` on a valid `geo:` URI without a
`u=` parameter (parsed accuracy `NaN`, so `calculateGeohashLength` gives
`NaN`) returns the empty string — which `decodeGeohash` itself rejects. -/
theorem encodeGeohash_degenerate :
    (∀ lat lon : Option QNum, ∀ a : QNum,
      (a = .nan ∨ a = .ninf ∨ ∃ x : ℚ, x ≤ 0 ∧ a = .num x) →
      encodeGeohash lat lon (some a) = "") ∧
    (∀ u : JSURL, u.protocol = "geo:" → u.origin = "null" →
      (∀ p ∈ (jsSplit ';' u.pathname).drop 1, ((jsSplit '=' p).take 2).headD "" ≠ "u") →
      geoURIToGeohash u = .ok "") ∧
    (∃ e, decodeGeohash (.str "") = .error e) := by
  have henc : ∀ lat lon : Option QNum, ∀ a : QNum,
      (a = .nan ∨ a = .ninf ∨ ∃ x : ℚ, x ≤ 0 ∧ a = .num x) →
      encodeGeohash lat lon (some a) = "" := by
    intro lat lon a ha
    have h0 : numChars (some a) = 0 := by
      rcases ha with h | h | ⟨x, hx, h⟩ <;> subst h
      · rfl
      · rfl
      · simp [numChars, Nat.ceil_eq_zero.mpr hx]
    unfold encodeGeohash
    rw [h0]
    rfl
  refine ⟨henc, fun u hp ho hu => ?_, ⟨_, rfl⟩⟩
  unfold geoURIToGeohash parseGeoURI
  rw [if_neg (by simp [hp, ho])]
  simp only [Except.map]
  have hfind : (((jsSplit ';' u.pathname).drop 1).map fun p =>
      (((jsSplit '=' p).take 2).headD "", ((jsSplit '=' p).take 2)[1]?)).reverse.find?
        (fun e => e.1 = "u") = none := by
    rw [List.find?_eq_none]
    intro x hx
    rw [List.mem_reverse, List.mem_map] at hx
    obtain ⟨p, hp2, hx2⟩ := hx
    subst hx2
    simpa using hu p hp2
  rw [hfind]
  exact congrArg Except.ok (henc _ _ _ (Or.inl rfl))

/-- C10 witness: the concrete geo URI `geo:57.64911,10.40744` (no `u=`)
yields the empty geohash. -/
theorem encodeGeohash_degenerate_witness :
    geoURIToGeohash ⟨"geo:", "null", "57.64911,10.40744"⟩ = .ok "" :=
  encodeGeohash_degenerate.2.1 ⟨"geo:", "null", "57.64911,10.40744"⟩ rfl rfl (by decide)

/-! ## Lemmas: JS number arithmetic -/

theorem jadd_comm (a b : JSNum) : jadd a b = jadd b a := by
  cases a <;> cases b <;> simp [jadd, add_comm]

theorem jmul_comm (a b : JSNum) : jmul a b = jmul b a := by
  cases a <;> cases b <;> simp [jmul, mul_comm]

theorem jneg_jneg (a : JSNum) : jneg (jneg a) = a := by
  cases a <;> simp [jneg]

theorem jneg_jsub (a b : JSNum) : jneg (jsub a b) = jsub b a := by
  cases a <;> cases b <;> simp [jsub, jadd, jneg] <;> ring

theorem jmul_neg_left (a b : JSNum) : jmul (jneg a) b = jneg (jmul a b) := by
  cases a <;> cases b <;> simp only [jmul, jneg, neg_mul] <;>
    (try split_ifs) <;> (first | rfl | (exfalso; linarith) | simp [jneg])

theorem jmul_neg_right (a b : JSNum) : jmul a (jneg b) = jneg (jmul a b) := by
  rw [jmul_comm, jmul_neg_left, jmul_comm]

theorem jmul_neg_neg (a b : JSNum) : jmul (jneg a) (jneg b) = jmul a b := by
  rw [jmul_neg_left, jmul_neg_right, jneg_jneg]

theorem jdiv_two_neg (a : JSNum) : jdiv (jneg a) (.num 2) = jneg (jdiv a (.num 2)) := by
  cases a <;> norm_num [jdiv, jneg, neg_div]

theorem jsin_jneg (a : JSNum) : jsin (jneg a) = jneg (jsin a) := by
  cases a <;> simp [jsin, jneg, Real.sin_neg]

theorem jhypot_neg_neg (a b : JSNum) : jhypot (jneg a) (jneg b) = jhypot a b := by
  cases a <;> cases b <;> simp [jhypot, jneg] <;> ring_nf

theorem clamp_jneg (c : ℝ) (hc : 0 ≤ c) (v : JSNum) :
    clamp (.num (-c)) (jneg v) (.num c) = jneg (clamp (.num (-c)) v (.num c)) := by
  cases v with
  | nan => simp [clamp, jmax, jmin, jneg]
  | inf =>
    simp only [clamp, jmax, jmin, jneg]
    rw [min_eq_left (by linarith)]
  | ninf =>
    simp only [clamp, jmax, jmin, jneg]
    rw [min_eq_left (by linarith : -c ≤ c)]
    simp
  | num x =>
    simp only [clamp, jmax, jmin, jneg]
    congr 1
    rcases le_total x (-c) with h1 | h1 <;> rcases le_total x c with h2 | h2 <;>
      rcases le_total (-x) (-c) with h3 | h3 <;>
      simp [max_def, min_def] <;> split_ifs <;> linarith

theorem jgt_eq_jlt (a b : JSNum) : jgt a b = jlt b a := rfl

/-- C6: `getDistance` is symmetric in its two coordinate arguments, in both
accuracy modes (for all inputs, numeric or not: if a field is missing both
orders give `NaN`). -/
theorem getDistance_symm (coords1 coords2 : JSCoords) (m : Bool) :
    getDistance coords1 coords2 m = getDistance coords2 coords1 m := by
  obtain ⟨la1, lo1⟩ := coords1
  obtain ⟨la2, lo2⟩ := coords2
  cases la1 with
  | none => cases la2 <;> cases lo2 <;> cases lo1 <;> rfl
  | some v1 =>
  cases lo1 with
  | none => cases la2 <;> cases lo2 <;> rfl
  | some v2 =>
  cases la2 with
  | none => cases lo2 <;> rfl
  | some v3 =>
  cases lo2 with
  | none => rfl
  | some v4 =>
  cases m with
  | false =>
    simp only [getDistance, if_true, if_false]
    rw [jadd_comm v3 v1]
    rw [show jsub v2 v4 = jneg (jsub v4 v2) from (jneg_jsub v4 v2).symm]
    rw [show jsub v1 v3 = jneg (jsub v3 v1) from (jneg_jsub v3 v1).symm]
    simp only [jmul_neg_left, jhypot_neg_neg]
  | true =>
    simp only [getDistance, if_true, if_false]
    simp only [eq_false (by decide : ¬(true = false)), if_false]
    rw [show jsub v1 v3 = jneg (jsub v3 v1) from (jneg_jsub v3 v1).symm]
    rw [show jsub v2 v4 = jneg (jsub v4 v2) from (jneg_jsub v4 v2).symm]
    rw [jmul_comm (jcos (clamp (.num (-90)) (jmul v3 (.num RADIANS_PER_DEGREE)) (.num 90)))
      (jcos (clamp (.num (-90)) (jmul v1 (.num RADIANS_PER_DEGREE)) (.num 90)))]
    simp only [jmul_neg_left, clamp_jneg 180 (by norm_num), jdiv_two_neg, jsin_jneg,
      jmul_neg_right, jneg_jneg]

theorem option_jsnum_cases (v : Option JSNum) (h1 : v ≠ some .inf) (h2 : v ≠ some .ninf) :
    v = none ∨ v = some .nan ∨ ∃ x : ℝ, v = some (.num x) := by
  cases v with
  | none => exact Or.inl rfl
  | some w =>
    cases w with
    | num x => exact Or.inr (Or.inr ⟨x, rfl⟩)
    | nan => exact Or.inr (Or.inl rfl)
    | inf => exact absurd rfl h1
    | ninf => exact absurd rfl h2

/-- C3 amended: `getDistance` returns `NaN` (and does not throw) whenever at
least one of the four coordinate values is missing, not a number, or `NaN`,
and none of them is `±Infinity`, in both accuracy modes.  (The original
claim also listed `±Infinity` inputs; those pass the `typeof` check and can
produce `Infinity` or even a finite number — see the counterexample.) -/
theorem getDistance_nan_sentinel (a b : JSCoords) (m : Bool)
    (hf1 : a.latitude ≠ some .inf ∧ a.latitude ≠ some .ninf)
    (hf2 : a.longitude ≠ some .inf ∧ a.longitude ≠ some .ninf)
    (hf3 : b.latitude ≠ some .inf ∧ b.latitude ≠ some .ninf)
    (hf4 : b.longitude ≠ some .inf ∧ b.longitude ≠ some .ninf)
    (hbad : a.latitude = none ∨ a.latitude = some .nan ∨ a.longitude = none ∨
      a.longitude = some .nan ∨ b.latitude = none ∨ b.latitude = some .nan ∨
      b.longitude = none ∨ b.longitude = some .nan) :
    getDistance a b m = .nan := by
  obtain ⟨la1, lo1⟩ := a
  obtain ⟨la2, lo2⟩ := b
  simp only at hf1 hf2 hf3 hf4 hbad
  rcases option_jsnum_cases la1 hf1.1 hf1.2 with h1 | h1 | ⟨x1, h1⟩ <;> subst h1 <;>
    rcases option_jsnum_cases lo1 hf2.1 hf2.2 with h2 | h2 | ⟨x2, h2⟩ <;> subst h2 <;>
    rcases option_jsnum_cases la2 hf3.1 hf3.2 with h3 | h3 | ⟨x3, h3⟩ <;> subst h3 <;>
    rcases option_jsnum_cases lo2 hf4.1 hf4.2 with h4 | h4 | ⟨x4, h4⟩ <;> subst h4 <;>
    cases m <;>
    simp_all [getDistance, jadd, jsub, jneg, jmul, jdiv, jcos, jsin, jsqrt, jatan2, jhypot,
      clamp, jmax, jmin]

/-- C3 witness: `getDistance({}, {})` (all four fields missing, default
accuracy mode) is `NaN`. -/
theorem getDistance_nan_sentinel_witness :
    getDistance ⟨none, none⟩ ⟨none, none⟩ false = .nan :=
  getDistance_nan_sentinel ⟨none, none⟩ ⟨none, none⟩ false ⟨by simp, by simp⟩
    ⟨by simp, by simp⟩ ⟨by simp, by simp⟩ ⟨by simp, by simp⟩ (Or.inl rfl)

/-- C3 counterexample: an `Infinity` latitude is `typeof number`, so it is
not caught; in high-accuracy mode the clamps make every intermediate value
finite and the result is an actual number, not `NaN`. -/
theorem getDistance_infinity_not_nan :
    getDistance ⟨some .inf, some (.num 0)⟩ ⟨some (.num 0), some (.num 0)⟩ true ≠ .nan := by
  have hrpd : (0 : ℝ) < RADIANS_PER_DEGREE := by
    unfold RADIANS_PER_DEGREE
    positivity
  have hs1 : ¬(Real.sin 90 * Real.sin 90 < (0 : ℝ)) := not_lt.mpr (mul_self_nonneg _)
  have hs2 : ¬((1 : ℝ) < Real.sin 90 * Real.sin 90) := by
    have ha := Real.sin_le_one (90 : ℝ)
    have hb := Real.neg_one_le_sin (90 : ℝ)
    nlinarith
  simp only [getDistance, eq_false (by decide : ¬(true = false)), if_false]
  simp only [jsub, jneg, jadd, jmul, jdiv, jcos, jsin, clamp, jmax, jmin, hrpd, if_true]
  norm_num [jsqrt, jatan2, jhypot, hs1, hs2]
  exact fun h => JSNum.noConfusion h

/-- C7: `checkLocation(point, reference, {radius, highAccuracy})` is exactly
the strict comparison `getDistance(reference, point, {highAccuracy}) <
radius`: true iff the distance is strictly below the radius, false when the
distance is `NaN` or exactly equal to the radius, and the radius defaults
to 100 000 meters when omitted. -/
theorem checkLocation_lt_radius (location location2 : JSCoords)
    (r : Option JSNum) (m : Option Bool) :
    (checkLocation location location2 r m = true ↔
      jlt (getDistance location2 location (m.getD false)) (r.getD (.num 100000)) = true) ∧
    (getDistance location2 location (m.getD false) = .nan →
      checkLocation location location2 r m = false) ∧
    (∀ x : ℝ, getDistance location2 location (m.getD false) = .num x →
      r.getD (.num 100000) = .num x → checkLocation location location2 r m = false) ∧
    checkLocation location location2 none m = checkLocation location location2
      (some (.num 100000)) m := by
  refine ⟨Iff.rfl, fun h => ?_, fun x hd hr => ?_, rfl⟩
  · unfold checkLocation jgt
    rw [h]
    cases Option.getD r (.num 100000) <;> rfl
  · unfold checkLocation jgt
    rw [hd, hr]
    simp [jlt, lt_irrefl]

/-- C7 witness: at radius exactly equal to the (zero) distance, the strict
comparison makes `checkLocation` false. -/
theorem checkLocation_lt_radius_witness :
    checkLocation ⟨some (.num 0), some (.num 0)⟩ ⟨some (.num 0), some (.num 0)⟩
      (some (.num 0)) none = false := by
  have hd : getDistance ⟨some (.num 0), some (.num 0)⟩ ⟨some (.num 0), some (.num 0)⟩
      false = .num 0 := by
    simp [getDistance, jsub, jadd, jneg, jmul, jdiv, jcos, jhypot, Real.sqrt_zero]
  exact (checkLocation_lt_radius ⟨some (.num 0), some (.num 0)⟩
    ⟨some (.num 0), some (.num 0)⟩ (some (.num 0)) none).2.2.1 0 hd rfl

/-- C9: with no options, `checkGeohash(g, c)` decodes `g` and tests
`getDistance(c, decoded, {highAccuracy: false}) < 100` — the effective
default radius is the raw number 100 in the same meter units `getDistance`
returns (one-thousandth of `checkLocation`'s own 100 000 m default). -/
theorem checkGeohash_default_100m (g : GeoInput) (c : JSCoords) (p : GeoCoordinates)
    (hdec : decodeGeohash g = .ok p) :
    checkGeohash g c none none =
      .ok (checkLocation ⟨some (.num (p.latitude : ℝ)), some (.num (p.longitude : ℝ))⟩ c
        (some (.num 100)) (some false)) ∧
    (checkGeohash g c none none = .ok true ↔
      jlt (getDistance c ⟨some (.num (p.latitude : ℝ)), some (.num (p.longitude : ℝ))⟩ false)
        (.num 100) = true) := by
  have h1 : checkGeohash g c none none =
      .ok (checkLocation ⟨some (.num (p.latitude : ℝ)), some (.num (p.longitude : ℝ))⟩ c
        (some (.num 100)) (some false)) := by
    unfold checkGeohash
    rw [hdec]
    rfl
  refine ⟨h1, ?_⟩
  rw [h1]
  rw [Except.ok.injEq]
  exact Iff.rfl

/-- C9 witness: the geohash `"0"` against the origin (distance far above
100 m, so the check is false — but the witness only needs the equivalence
instantiated). -/
theorem checkGeohash_default_100m_witness :
    checkGeohash (.str "0") ⟨some (.num 0), some (.num 0)⟩ none none =
      .ok (checkLocation ⟨some (.num ((-135 / 2 : ℚ) : ℝ)), some (.num ((-315 / 2 : ℚ) : ℝ))⟩
        ⟨some (.num 0), some (.num 0)⟩ (some (.num 100)) (some false)) ∧
    (checkGeohash (.str "0") ⟨some (.num 0), some (.num 0)⟩ none none = .ok true ↔
      jlt (getDistance ⟨some (.num 0), some (.num 0)⟩
        ⟨some (.num ((-135 / 2 : ℚ) : ℝ)), some (.num ((-315 / 2 : ℚ) : ℝ))⟩ false)
        (.num 100) = true) :=
  checkGeohash_default_100m (.str "0") ⟨some (.num 0), some (.num 0)⟩ ⟨-135 / 2, -315 / 2⟩
    (by
      have h2 : stringBits "0" = [false, false, false, false, false] := by decide
      have hl : ¬("0".length = 0) := by decide
      simp only [decodeGeohash, _decodeGeohash, hl, if_false, h2, Except.map]
      simp only [decBits, List.foldl, decBit, initSt]
      norm_num)

/-! ## Lemmas: the high-accuracy clamp bug (C8) -/

theorem sin_poly_upper {x a b : ℝ} (h0 : 0 ≤ a) (ha : a ≤ x) (hb : x ≤ b) (hb1 : b ≤ 1) :
    Real.sin x ≤ b - a ^ 3 / 6 + b ^ 4 * (5 / 96) := by
  have hx1 : |x| ≤ 1 := abs_le.mpr ⟨by linarith, by linarith⟩
  have h := Real.sin_bound hx1
  rw [abs_of_nonneg (by linarith : (0 : ℝ) ≤ x)] at h
  have h2 : Real.sin x - (x - x ^ 3 / 6) ≤ x ^ 4 * (5 / 96) := (abs_le.mp h).2
  have h3 : a ^ 3 ≤ x ^ 3 := pow_le_pow_left₀ h0 ha 3
  have h4 : x ^ 4 ≤ b ^ 4 := pow_le_pow_left₀ (by linarith) hb 4
  linarith

theorem sin_two_pi_ninth_sq_le : Real.sin (2 * Real.pi / 9) ^ 2 ≤ 0.4275 := by
  have hpl : (3.141592 : ℝ) < Real.pi := Real.pi_gt_d6
  have hpu : Real.pi < 3.141593 := Real.pi_lt_d6
  have ha : (0.6981315 : ℝ) ≤ 2 * Real.pi / 9 := by linarith
  have hb : 2 * Real.pi / 9 ≤ (0.6981318 : ℝ) := by linarith
  have hs := sin_poly_upper (by norm_num : (0 : ℝ) ≤ 0.6981315) ha hb (by norm_num)
  have hval : (0.6981318 : ℝ) - 0.6981315 ^ 3 / 6 + 0.6981318 ^ 4 * (5 / 96) ≤ 0.6538 := by
    norm_num
  have hs0 : 0 ≤ Real.sin (2 * Real.pi / 9) :=
    Real.sin_nonneg_of_nonneg_of_le_pi (by positivity) (by linarith)
  nlinarith

theorem cos_ninety_le : Real.cos 90 ≤ -0.4386 := by
  have hpl : (3.141592 : ℝ) < Real.pi := Real.pi_gt_d6
  have hpu : Real.pi < 3.141593 := Real.pi_lt_d6
  have h90 : Real.cos 90 = Real.cos (90 - 28 * Real.pi) := by
    rw [show (90 : ℝ) = (90 - 28 * Real.pi) + (14 : ℤ) * (2 * Real.pi) by push_cast; ring]
    rw [Real.cos_add_int_mul_two_pi]
    rw [show ((90 : ℝ) - 28 * Real.pi) + (14 : ℤ) * (2 * Real.pi) = 90 by push_cast; ring]
  have h2 : Real.cos (90 - 28 * Real.pi) = -Real.cos (29 * Real.pi - 90) := by
    rw [show (90 : ℝ) - 28 * Real.pi = Real.pi - (29 * Real.pi - 90) by ring, Real.cos_pi_sub]
  have hta : (0.553084 : ℝ) ≤ (29 * Real.pi - 90) / 2 := by linarith
  have htb : (29 * Real.pi - 90) / 2 ≤ (0.5530985 : ℝ) := by linarith
  have hs := sin_poly_upper (by norm_num : (0 : ℝ) ≤ 0.553084) hta htb (by norm_num)
  have hval : (0.5530985 : ℝ) - 0.553084 ^ 3 / 6 + 0.5530985 ^ 4 * (5 / 96) ≤ 0.52978 := by
    norm_num
  have hs0 : 0 ≤ Real.sin ((29 * Real.pi - 90) / 2) :=
    Real.sin_nonneg_of_nonneg_of_le_pi (by linarith) (by linarith)
  have hcos : Real.cos (29 * Real.pi - 90) =
      1 - 2 * Real.sin ((29 * Real.pi - 90) / 2) ^ 2 := by
    have h := Real.cos_two_mul ((29 * Real.pi - 90) / 2)
    rw [Real.cos_sq'] at h
    rw [show 2 * ((29 * Real.pi - 90) / 2) = 29 * Real.pi - 90 by ring] at h
    linarith
  have hcosy : (0.4386 : ℝ) ≤ Real.cos (29 * Real.pi - 90) := by
    rw [hcos]
    nlinarith
  rw [h90, h2]
  linarith

/-- C8 counterexample: the high-accuracy branch clamps the *radian* latitude
to the numeric interval [-90, 90], not to [-π/2, π/2]: at latitude 10000°
the value fed to `cos` is 90 radians (> π/2), and at the concrete input
(lat 10000°, lon 0°) vs (lat 0°, lon 180°) the haversine term is negative,
`Math.sqrt` returns `NaN`, and `getDistance` returns `NaN` — not a
non-negative real number. -/
theorem getDistance_highAccuracy_clamp_bug :
    clamp (.num (-90)) (jmul (.num 10000) (.num RADIANS_PER_DEGREE)) (.num 90) = .num 90 ∧
    Real.pi / 2 < 90 ∧
    getDistance ⟨some (.num 10000), some (.num 0)⟩ ⟨some (.num 0), some (.num 180)⟩ true =
      .nan := by
  have hpl : (3.141592 : ℝ) < Real.pi := Real.pi_gt_d6
  have hpu : Real.pi < 3.141593 := Real.pi_lt_d6
  have hB : min (10000 * (Real.pi / 180)) (90 : ℝ) = 90 := min_eq_right (by nlinarith)
  have hA : max (10000 * (Real.pi / 180)) (-90 : ℝ) = 10000 * (Real.pi / 180) :=
    max_eq_left (by nlinarith)
  refine ⟨?_, by linarith, ?_⟩
  · simp only [clamp, jmul, jmax, jmin, RADIANS_PER_DEGREE]
    rw [hA, hB]
  · simp only [getDistance, eq_false (by decide : ¬(true = false)), if_false,
      RADIANS_PER_DEGREE]
    simp only [jsub, jneg, jadd, jmul, jdiv, jcos, jsin, clamp, jmax, jmin,
      eq_false (by norm_num : ¬((2 : ℝ) = 0)), if_false]
    have hC : max ((0 : ℝ) * (Real.pi / 180)) (-90 : ℝ) = 0 * (Real.pi / 180) :=
      max_eq_left (by nlinarith)
    have hD : min ((0 : ℝ) * (Real.pi / 180)) (90 : ℝ) = 0 * (Real.pi / 180) :=
      min_eq_left (by nlinarith)
    have hE : max ((0 + -10000 : ℝ) * (Real.pi / 180)) (-180 : ℝ) =
        (0 + -10000) * (Real.pi / 180) := max_eq_left (by nlinarith)
    have hF : min ((0 + -10000 : ℝ) * (Real.pi / 180)) (180 : ℝ) =
        (0 + -10000) * (Real.pi / 180) := min_eq_left (by nlinarith)
    have hG : max ((180 + -0 : ℝ) * (Real.pi / 180)) (-180 : ℝ) =
        (180 + -0) * (Real.pi / 180) := max_eq_left (by nlinarith)
    have hH : min ((180 + -0 : ℝ) * (Real.pi / 180)) (180 : ℝ) =
        (180 + -0) * (Real.pi / 180) := min_eq_left (by nlinarith)
    rw [hA, hB, hC, hD, hE, hF, hG, hH]
    rw [show ((0 + -10000 : ℝ) * (Real.pi / 180) / 2) =
      2 * Real.pi / 9 + ((-14 : ℤ) : ℝ) * (2 * Real.pi) by push_cast; ring]
    rw [Real.sin_add_int_mul_two_pi]
    rw [show ((180 + -0 : ℝ) * (Real.pi / 180) / 2) = Real.pi / 2 by ring]
    rw [Real.sin_pi_div_two]
    rw [show ((0 : ℝ) * (Real.pi / 180)) = 0 by ring]
    rw [Real.cos_zero]
    simp only [mul_one]
    have hD2 : Real.sin (2 * Real.pi / 9) * Real.sin (2 * Real.pi / 9) + Real.cos 90 < 0 := by
      have t1 := sin_two_pi_ninth_sq_le
      have t2 := cos_ninety_le
      have ht : Real.sin (2 * Real.pi / 9) * Real.sin (2 * Real.pi / 9) =
          Real.sin (2 * Real.pi / 9) ^ 2 := (pow_two _).symm
      rw [ht]
      linarith
    simp only [jsqrt, if_pos hD2]
    rw [if_neg (by nlinarith :
      ¬((1 : ℝ) + -(Real.sin (2 * Real.pi / 9) * Real.sin (2 * Real.pi / 9) + Real.cos 90) < 0))]
    rfl

theorem sin_half_sq (u : ℝ) : Real.sin (u / 2) ^ 2 = (1 - Real.cos u) / 2 := by
  have h := Real.cos_two_mul (u / 2)
  rw [Real.cos_sq'] at h
  rw [show 2 * (u / 2) = u by ring] at h
  linarith

set_option maxHeartbeats 1600000 in
/-- C8 amended: the high-accuracy branch clamps the radian values to the raw
numeric intervals [-90, 90] and [-180, 180] (for coordinates within the
valid ranges these clamps are no-ops, since |lat·π/180| ≤ π/2 < 90 and
|Δ·π/180| ≤ π < 180); under those range assumptions the haversine term h
stays in [0, 1], the `sqrt` and `atan2` arguments stay in-domain, and the
returned distance is a non-negative real number.  (For pathological inputs
such as latitude 10000° this fails — see the counterexample.) -/
theorem getDistance_highAccuracy_bounded (la1 lo1 la2 lo2 : ℝ)
    (h1 : |la1| ≤ 90) (h2 : |la2| ≤ 90) (h3 : |lo2 - lo1| ≤ 180) :
    0 ≤ haversineTerm la1 lo1 la2 lo2 ∧ haversineTerm la1 lo1 la2 lo2 ≤ 1 ∧
    getDistance ⟨some (.num la1), some (.num lo1)⟩ ⟨some (.num la2), some (.num lo2)⟩ true =
      .num (EARTH_RADIUS_METERS * (2 * atan2R (Real.sqrt (haversineTerm la1 lo1 la2 lo2))
        (Real.sqrt (1 + -haversineTerm la1 lo1 la2 lo2)))) ∧
    0 ≤ EARTH_RADIUS_METERS * (2 * atan2R (Real.sqrt (haversineTerm la1 lo1 la2 lo2))
        (Real.sqrt (1 + -haversineTerm la1 lo1 la2 lo2))) := by
  obtain ⟨h1a, h1b⟩ := abs_le.mp h1
  obtain ⟨h2a, h2b⟩ := abs_le.mp h2
  obtain ⟨h3a, h3b⟩ := abs_le.mp h3
  have hpl : (3 : ℝ) < Real.pi := Real.pi_gt_three
  have hpu : Real.pi < 3.15 := Real.pi_lt_d2
  have hrpd : RADIANS_PER_DEGREE = Real.pi / 180 := rfl
  have hscale : ∀ x : ℝ, -180 ≤ x → x ≤ 180 →
      -Real.pi ≤ x * RADIANS_PER_DEGREE ∧ x * RADIANS_PER_DEGREE ≤ Real.pi := by
    intro x hx1 hx2
    rw [hrpd]
    constructor <;> nlinarith
  have hφ1 := hscale la1 (by linarith) (by linarith)
  have hφ2 := hscale la2 (by linarith) (by linarith)
  have hφ1half : -(Real.pi / 2) ≤ la1 * RADIANS_PER_DEGREE ∧
      la1 * RADIANS_PER_DEGREE ≤ Real.pi / 2 := by
    rw [hrpd]
    constructor <;> nlinarith
  have hφ2half : -(Real.pi / 2) ≤ la2 * RADIANS_PER_DEGREE ∧
      la2 * RADIANS_PER_DEGREE ≤ Real.pi / 2 := by
    rw [hrpd]
    constructor <;> nlinarith
  have hA : max (la1 * RADIANS_PER_DEGREE) (-90 : ℝ) = la1 * RADIANS_PER_DEGREE :=
    max_eq_left (by nlinarith [hφ1half.1])
  have hB : min (la1 * RADIANS_PER_DEGREE) (90 : ℝ) = la1 * RADIANS_PER_DEGREE :=
    min_eq_left (by nlinarith [hφ1half.2])
  have hC : max (la2 * RADIANS_PER_DEGREE) (-90 : ℝ) = la2 * RADIANS_PER_DEGREE :=
    max_eq_left (by nlinarith [hφ2half.1])
  have hD : min (la2 * RADIANS_PER_DEGREE) (90 : ℝ) = la2 * RADIANS_PER_DEGREE :=
    min_eq_left (by nlinarith [hφ2half.2])
  have hdel := hscale (la2 + -la1) (by linarith) (by linarith)
  have hE : max ((la2 + -la1) * RADIANS_PER_DEGREE) (-180 : ℝ) =
      (la2 + -la1) * RADIANS_PER_DEGREE := max_eq_left (by nlinarith [hdel.1])
  have hF : min ((la2 + -la1) * RADIANS_PER_DEGREE) (180 : ℝ) =
      (la2 + -la1) * RADIANS_PER_DEGREE := min_eq_left (by nlinarith [hdel.2])
  have hlam := hscale (lo2 + -lo1) (by linarith [sub_eq_add_neg lo2 lo1]) (by
    rw [← sub_eq_add_neg]
    linarith)
  have hG : max ((lo2 + -lo1) * RADIANS_PER_DEGREE) (-180 : ℝ) =
      (lo2 + -lo1) * RADIANS_PER_DEGREE := max_eq_left (by nlinarith [hlam.1])
  have hH : min ((lo2 + -lo1) * RADIANS_PER_DEGREE) (180 : ℝ) =
      (lo2 + -lo1) * RADIANS_PER_DEGREE := min_eq_left (by nlinarith [hlam.2])
  have hhav : haversineTerm la1 lo1 la2 lo2 =
      Real.sin ((la2 + -la1) * RADIANS_PER_DEGREE / 2) *
        Real.sin ((la2 + -la1) * RADIANS_PER_DEGREE / 2) +
      Real.cos (la1 * RADIANS_PER_DEGREE) * Real.cos (la2 * RADIANS_PER_DEGREE) *
        Real.sin ((lo2 + -lo1) * RADIANS_PER_DEGREE / 2) *
        Real.sin ((lo2 + -lo1) * RADIANS_PER_DEGREE / 2) := by
    unfold haversineTerm
    rw [sub_eq_add_neg la2 la1, sub_eq_add_neg lo2 lo1]
    rw [hA, hB, hC, hD, hE, hF, hG, hH]
  have hc1 : 0 ≤ Real.cos (la1 * RADIANS_PER_DEGREE) :=
    Real.cos_nonneg_of_mem_Icc ⟨hφ1half.1, hφ1half.2⟩
  have hc2 : 0 ≤ Real.cos (la2 * RADIANS_PER_DEGREE) :=
    Real.cos_nonneg_of_mem_Icc ⟨hφ2half.1, hφ2half.2⟩
  have hge0 : 0 ≤ haversineTerm la1 lo1 la2 lo2 := by
    rw [hhav]
    nlinarith [mul_self_nonneg (Real.sin ((la2 + -la1) * RADIANS_PER_DEGREE / 2)),
      mul_nonneg (mul_nonneg hc1 hc2)
        (mul_self_nonneg (Real.sin ((lo2 + -lo1) * RADIANS_PER_DEGREE / 2)))]
  have hle1 : haversineTerm la1 lo1 la2 lo2 ≤ 1 := by
    rw [hhav]
    have e1 : Real.sin ((la2 + -la1) * RADIANS_PER_DEGREE / 2) *
        Real.sin ((la2 + -la1) * RADIANS_PER_DEGREE / 2) =
        (1 - Real.cos (la2 * RADIANS_PER_DEGREE - la1 * RADIANS_PER_DEGREE)) / 2 := by
      rw [← pow_two, sin_half_sq, show (la2 + -la1) * RADIANS_PER_DEGREE =
        la2 * RADIANS_PER_DEGREE - la1 * RADIANS_PER_DEGREE by ring]
    have e2 := Real.cos_sub (la2 * RADIANS_PER_DEGREE) (la1 * RADIANS_PER_DEGREE)
    have e3 := Real.cos_add (la1 * RADIANS_PER_DEGREE) (la2 * RADIANS_PER_DEGREE)
    have e4 := Real.cos_le_one (la1 * RADIANS_PER_DEGREE + la2 * RADIANS_PER_DEGREE)
    have e5 : Real.sin ((lo2 + -lo1) * RADIANS_PER_DEGREE / 2) *
        Real.sin ((lo2 + -lo1) * RADIANS_PER_DEGREE / 2) ≤ 1 := by
      rw [← pow_two]
      exact Real.sin_sq_le_one _
    have e6 : Real.cos (la1 * RADIANS_PER_DEGREE) * Real.cos (la2 * RADIANS_PER_DEGREE) *
        (Real.sin ((lo2 + -lo1) * RADIANS_PER_DEGREE / 2) *
          Real.sin ((lo2 + -lo1) * RADIANS_PER_DEGREE / 2)) ≤
        Real.cos (la1 * RADIANS_PER_DEGREE) * Real.cos (la2 * RADIANS_PER_DEGREE) :=
      mul_le_of_le_one_right (mul_nonneg hc1 hc2) e5
    nlinarith [e1, e2, e3, e4, e6]
  have hred : getDistance ⟨some (.num la1), some (.num lo1)⟩
      ⟨some (.num la2), some (.num lo2)⟩ true =
      .num (EARTH_RADIUS_METERS * (2 * atan2R (Real.sqrt (haversineTerm la1 lo1 la2 lo2))
        (Real.sqrt (1 + -haversineTerm la1 lo1 la2 lo2)))) := by
    simp only [getDistance, eq_false (by decide : ¬(true = false)), if_false]
    simp only [jsub, jneg, jadd, jmul, jdiv, jcos, jsin, clamp, jmax, jmin,
      eq_false (by norm_num : ¬((2 : ℝ) = 0)), if_false]
    rw [hA, hB, hC, hD, hE, hF, hG, hH]
    rw [← hhav]
    simp only [jsqrt, if_neg (not_lt.mpr hge0), if_neg (not_lt.mpr (by linarith :
      (0 : ℝ) ≤ 1 + -haversineTerm la1 lo1 la2 lo2))]
    rfl
  refine ⟨hge0, hle1, hred, ?_⟩
  have harg : 0 ≤ atan2R (Real.sqrt (haversineTerm la1 lo1 la2 lo2))
      (Real.sqrt (1 + -haversineTerm la1 lo1 la2 lo2)) := by
    unfold atan2R
    exact Complex.arg_nonneg_iff.mpr (Real.sqrt_nonneg _)
  have hR : (0 : ℝ) ≤ EARTH_RADIUS_METERS := by
    unfold EARTH_RADIUS_METERS
    norm_num
  exact mul_nonneg hR (mul_nonneg (by norm_num) harg)

/-- C8 witness: the amended statement at the concrete in-range input
(0°, 0°) vs (0°, 0°). -/
theorem getDistance_highAccuracy_bounded_witness :
    0 ≤ haversineTerm 0 0 0 0 ∧ haversineTerm 0 0 0 0 ≤ 1 ∧
    getDistance ⟨some (.num 0), some (.num 0)⟩ ⟨some (.num 0), some (.num 0)⟩ true =
      .num (EARTH_RADIUS_METERS * (2 * atan2R (Real.sqrt (haversineTerm 0 0 0 0))
        (Real.sqrt (1 + -haversineTerm 0 0 0 0)))) ∧
    0 ≤ EARTH_RADIUS_METERS * (2 * atan2R (Real.sqrt (haversineTerm 0 0 0 0))
        (Real.sqrt (1 + -haversineTerm 0 0 0 0))) :=
  getDistance_highAccuracy_bounded 0 0 0 0 (by norm_num) (by norm_num) (by norm_num)

end GeoUtils
